import Mathlib

/-!
Verification of the steam-stats repository (src/steam_explorer.py) against its
natural-language specification.

The Python program is embedded shallowly:

* machine/JSON integers become `Nat`, review playtimes in hours become `ℚ`
  (Python float arithmetic is modelled by exact rational arithmetic);
* the HTTP review endpoint is modelled by the list (or stream) of responses
  the server would give to the successive requests of one fetch cycle;
* fallible code (non-200 status, unparseable body, `round` applied to the
  NaN produced by `describe()` on an empty series) is modelled with
  `Except`/`Option`;
* the in-place mutation of the module-level `params` dict is modelled by
  threading a `Params` value: each function that mutates it returns the
  mutated value.
-/

/-- One review as delivered by the Steam endpoint: the fields the program
reads are `review["author"]["playtime_forever"]` (minutes) and
`review["voted_up"]`. -/
structure Author where
  playtime_forever : Nat
deriving Repr, DecidableEq

/-- A raw review object from the endpoint (the nested fields used by
`parse_reviews`). -/
structure Review where
  author : Author
  voted_up : Bool
deriving Repr, DecidableEq

/-- A parsed (200, JSON-decoded) response body of the review endpoint:
`cursor` is absent (`none`) or a string (possibly empty — Python treats both
as falsy), and `reviews` is the page's list of reviews. -/
structure Response where
  cursor : Option String
  reviews : List Review
deriving Repr, DecidableEq

/-- One raw HTTP answer of the server: a status code, and the parsed body
when the body is valid JSON (`none` models an unparseable body). -/
structure ServerResp where
  status_code : Nat
  body : Option Response
deriving Repr, DecidableEq

/-- The query-parameter dict built at module level in steam_explorer.py
(lines 8-14).  `get_user_reviews` mutates its `cursor` entry in place. -/
structure Params where
  json : Nat
  language : String
  cursor : String
  num_per_page : Nat
  filter : String
deriving Repr, DecidableEq

/-- The module-level `params` value: json=1, language=english, cursor="*",
num_per_page=100, filter=recent. -/
def params : Params :=
  { json := 1, language := "english", cursor := "*", num_per_page := 100,
    filter := "recent" }

/-- The failures of one fetch cycle.  On a non-200 status the Python code
writes "Failed to get response. Status code: s" to the UI and raises
(`ValueError`); the status code the code reports is carried by
`remoteFetch`.  On a JSON-decode failure it re-raises the decoding
exception, modelled by `remoteParse`. -/
inductive FetchErr where
  | remoteFetch (status_code : Nat)
  | remoteParse
deriving Repr, DecidableEq

/-- `get_user_reviews_helper` (lines 30-48): issue one GET with the current
params; a non-200 status raises (carrying the reported status code); an
unparseable body raises; otherwise the parsed body is returned.  The
argument is the server's answer to this one request. -/
def get_user_reviews_helper (resp : ServerResp) : Except FetchErr Response :=
  if resp.status_code ≠ 200 then
    .error (.remoteFetch resp.status_code)
  else
    match resp.body with
    | none => .error .remoteParse
    | some r => .ok r

/-- The observable outcome of one call to `get_user_reviews`:
`requests` is the cursor of each HTTP request issued, in order;
`final` is the caller's params dict after the call (the loop mutates its
`cursor` entry in place, and Python keeps those mutations even when an
exception later propagates);
`result` is the returned review list, or the exception raised. -/
structure FetchOut where
  requests : List String
  final : Params
  result : Except FetchErr (List Review)
deriving Repr

/-- The body of the `while` loop of `get_user_reviews` (lines 59-68),
by recursion over the list of answers the server would give to the
successive requests.  Faithful to the Python order of operations:
the guard `len(revs) < max_revs - 1` is tested first; then one request is
issued; a non-200/unparseable answer raises; then
`cursor = response.get("cursor")`; `if not cursor: break` (None and the
empty string are falsy) — note the break happens BEFORE the page's reviews
are appended; otherwise `revs.extend(response["reviews"])` and
`params["cursor"] = cursor`.  An exhausted answer list returns the
accumulator (the model provides finitely many answers). -/
def get_user_reviews_go (max_revs : Nat) (revs : List Review) (p : Params)
    (reqs : List String) : List ServerResp → FetchOut
  | [] => ⟨reqs, p, .ok revs⟩
  | page :: rest =>
    if revs.length < max_revs - 1 then
      match get_user_reviews_helper page with
      | .error e => ⟨reqs ++ [p.cursor], p, .error e⟩
      | .ok response =>
        match response.cursor with
        | none => ⟨reqs ++ [p.cursor], p, .ok revs⟩
        | some c =>
          if c = "" then ⟨reqs ++ [p.cursor], p, .ok revs⟩
          else
            get_user_reviews_go max_revs (revs ++ response.reviews)
              { p with cursor := c } (reqs ++ [p.cursor]) rest
    else ⟨reqs, p, .ok revs⟩

/-- `get_user_reviews(steam_app_id, params, max_revs)` (lines 51-68).  The
`steam_app_id` argument only selects the URL; here the server side is
modelled directly by `pages`, the answers the endpoint for that app would
give to the successive requests of this cycle. -/
def get_user_reviews (pages : List ServerResp) (p : Params)
    (max_revs : Nat) : FetchOut :=
  get_user_reviews_go max_revs [] p [] pages

/-- The review list returned by a fetch, `[]` when the fetch raised. -/
def resultRevs (o : FetchOut) : List Review :=
  match o.result with
  | .ok l => l
  | .error _ => []

/-- The reviews carried by one server answer (empty when the body is
unparseable). -/
def pageReviews (pg : ServerResp) : List Review :=
  match pg.body with
  | some r => r.reviews
  | none => []

/-! ### The pagination loop over an unbounded stream of responses

For the termination question the server is an infinite stream of
well-formed (status 200, parseable) responses, and the loop of
`get_user_reviews` is given by its step function on the state
(index of the next request, accumulated reviews). -/

/-- Python's `not cursor` test of line 63: true for a missing cursor and
for the empty string. -/
def pageFalsy (r : Response) : Bool :=
  match r.cursor with
  | none => true
  | some c => c = ""

/-- The loop of `get_user_reviews` leaves this state without a further
iteration: the guard `len(revs) < max_revs - 1` fails, or the next
response's cursor is falsy (the `break` of line 64). -/
def fetchHalts (pages : Nat → Response) (max_revs : Nat)
    (s : Nat × List Review) : Bool :=
  !(decide (s.2.length < max_revs - 1)) || pageFalsy (pages s.1)

/-- One loop iteration from a non-halting state: append the page's reviews
(line 65) and move to the next page (the cursor update of line 67 is the
index increment in the stream view).  Halting states are fixed. -/
def fetchStep (pages : Nat → Response) (max_revs : Nat)
    (s : Nat × List Review) : Nat × List Review :=
  if fetchHalts pages max_revs s then s
  else (s.1 + 1, s.2 ++ (pages s.1).reviews)

/-- The loop state after `n` iterations, from the initial state
(`revs = []`, first page). -/
def fetchIter (pages : Nat → Response) (max_revs : Nat) : Nat → Nat × List Review
  | 0 => (0, [])
  | n + 1 => fetchStep pages max_revs (fetchIter pages max_revs n)

/-- The loop terminates on this server stream: some iterate is a halting
state. -/
def FetchTerminates (pages : Nat → Response) (max_revs : Nat) : Prop :=
  ∃ n, fetchHalts pages max_revs (fetchIter pages max_revs n) = true

/-! ### Game catalog and search -/

/-- One row of the catalog dataframe built by `load_games_df`
(lines 17-24): the JSON fields the program uses plus the derived
`name_lowercase` column. -/
structure GameRecord where
  appid : Nat
  name : String
  positive : Nat
  negative : Nat
  name_lowercase : String
deriving Repr, DecidableEq

/-- Python's `str.lower()`, character by character (the repository's names
are ASCII; `Char.toLower` lowers exactly the ASCII uppercase letters). -/
def pyLower (s : String) : String :=
  String.mk (s.toList.map Char.toLower)

/-- The `name_lowercase` derivation of `load_games_df` line 23:
`name_lowercase = name.lower()`. -/
def load_game_record (appid : Nat) (name : String) (positive negative : Nat) :
    GameRecord :=
  { appid := appid, name := name, positive := positive, negative := negative,
    name_lowercase := pyLower name }

/-- A token of the regular-expression fragment modelled here: a plain
character, or the metacharacter `.` (pandas `Series.str.contains` treats
its argument as a Python regular expression by default — `regex=True`). -/
inductive RTok where
  | lit (c : Char)
  | dot
deriving Repr, DecidableEq

/-- The Python `re` metacharacters other than `.` — queries containing one
of these are outside the modelled regex fragment. -/
def regexMeta : List Char :=
  ['^', '$', '*', '+', '?', '\x7b', '\x7d', '[', ']', '\\', '|', '(', ')']

/-- Compile a query string into the modelled regex fragment: `.` becomes a
wildcard token, a plain character matches itself; any other metacharacter
is outside the fragment (`none`). -/
def compilePat : List Char → Option (List RTok)
  | [] => some []
  | c :: cs =>
    if c = '.' then (compilePat cs).map (fun ts => RTok.dot :: ts)
    else if c ∈ regexMeta then none
    else (compilePat cs).map (fun ts => RTok.lit c :: ts)

/-- Whether one token matches one character; `.` matches every character
except a newline (re.DOTALL is off). -/
def tokMatch : RTok → Char → Bool
  | .lit a, c => a = c
  | .dot, c => c ≠ '\n'

/-- Whether the pattern matches a prefix of the character list. -/
def matchHere : List RTok → List Char → Bool
  | [], _ => true
  | _ :: _, [] => false
  | t :: ts, c :: cs => tokMatch t c && matchHere ts cs

/-- `re.search` semantics on the fragment: the pattern matches at some
position of the string. -/
def searchFrom (ts : List RTok) : List Char → Bool
  | [] => matchHere ts []
  | c :: cs => matchHere ts (c :: cs) || searchFrom ts cs

/-- `get_steam_app_id(df, search_str)` (lines 71-73):
`df[df.name_lowercase.str.contains(search_str.lower())][["name","appid"]]`.
`str.contains` interprets the lowered query as a regular expression
(`regex=True` is the pandas default); the result keeps catalog order.
Queries outside the modelled regex fragment give `none`. -/
def get_steam_app_id (df : List GameRecord) (search_str : String) :
    Option (List (String × Nat)) :=
  (compilePat (pyLower search_str).toList).map fun pat =>
    (df.filter fun g => searchFrom pat g.name_lowercase.toList).map
      fun g => (g.name, g.appid)

/-- Whether the pattern-as-prefix test holds literally: `needle` begins the
list. -/
def litHere : List Char → List Char → Bool
  | [], _ => true
  | _ :: _, [] => false
  | a :: as, c :: cs => a = c && litHere as cs

/-- Literal containment of `needle` at some position of the list. -/
def litFrom (needle : List Char) : List Char → Bool
  | [] => litHere needle []
  | c :: cs => litHere needle (c :: cs) || litFrom needle cs

/-- Modelled from the spec: literal (non-regex) case-sensitive substring
containment, the "lowercase name contains the literal substring q.lower()"
relation of §4.2 / §8, for comparison with the code's regex-based search. -/
def literalSubstr (hay needle : String) : Bool :=
  litFrom needle.toList hay.toList

/-! ### Review transformation -/

/-- One row of the dataframe built by `parse_reviews` (lines 76-88):
columns `playtime` (minutes), `voted_up`, `title`, and the derived
`playtime_hours = playtime / 60` (line 87; float division modelled over
ℚ). -/
structure ReviewRow where
  playtime : Nat
  voted_up : Bool
  title : String
  playtime_hours : ℚ
deriving Repr, DecidableEq

/-- A default row (used only as the `getD` fallback in statements). -/
def dRow : ReviewRow :=
  { playtime := 0, voted_up := false, title := "", playtime_hours := 0 }

/-- A default raw review (the `getD` fallback in statements). -/
def dRev : Review :=
  { author := { playtime_forever := 0 }, voted_up := false }

/-- The failure of `parse_reviews` on an empty review list:
`pd.DataFrame([])` is a frame without columns, so line 87 (`df.playtime`)
raises `AttributeError`. -/
inductive ParseErr where
  | attributeError
deriving Repr, DecidableEq

/-- `parse_reviews(reviews, title)` (lines 76-88): one output row per raw
review, in order, taking `playtime` from `review["author"]["playtime_forever"]`,
preserving `voted_up`, tagging every row with `title`, and deriving
`playtime_hours = playtime / 60` (line 87).  On the empty list, the built
dataframe has no `playtime` column and line 87 raises `AttributeError`. -/
def parse_reviews (reviews : List Review) (title : String) :
    Except ParseErr (List ReviewRow) :=
  if reviews.isEmpty then .error .attributeError
  else
    .ok (reviews.map fun i =>
      { playtime := i.author.playtime_forever
        voted_up := i.voted_up
        title := title
        playtime_hours := (i.author.playtime_forever : ℚ) / 60 })

/-! ### Statistics (`playtime_hist`, lines 91-106)

`df.playtime_hours.describe()` computes count, mean, std, min, the linearly
interpolated 25%/50%/75% percentiles, and max.  Python floats are modelled
over ℚ; the NaN that `describe()`/`median()` yield on an empty series has
no rational counterpart, and the `ValueError` that Python's `round` raises
on it is the modelled failure. -/

/-- The arithmetic mean of a list (the `mean` of `describe()`); only
meaningful on a non-empty list. -/
def listMean (xs : List ℚ) : ℚ :=
  xs.sum / (xs.length : ℚ)

/-- The smallest element of a non-empty list (`0` for the empty list). -/
def listMinD : List ℚ → ℚ
  | [] => 0
  | a :: as => as.foldl min a

/-- The largest element of a non-empty list (`0` for the empty list). -/
def listMaxD : List ℚ → ℚ
  | [] => 0
  | a :: as => as.foldl max a

/-- Python's `round` to an integer: round half to even. -/
def pyRound (x : ℚ) : ℤ :=
  let f := ⌊x⌋
  let frac := x - (f : ℚ)
  if frac < 1 / 2 then f
  else if 1 / 2 < frac then f + 1
  else if f % 2 = 0 then f else f + 1

/-- The linearly interpolated `q`-quantile of an ascending-sorted list, the
method of `Series.describe`/`Series.median` (numpy linear interpolation):
with `h = q * (n - 1)` and `i = floor h`, the value is
`s[i] + (h - i) * (s[i+1] - s[i])` (clamped at the last element). -/
def quantileSorted (s : List ℚ) (q : ℚ) : ℚ :=
  if s.length = 0 then 0
  else
    let h : ℚ := q * ((s.length - 1 : ℕ) : ℚ)
    let i : ℕ := ⌊h⌋.toNat
    let lo := s.getD i 0
    let hi := s.getD (i + 1) lo
    lo + (h - (i : ℚ)) * (hi - lo)

/-- The `q`-quantile of an arbitrary list: sort ascending, then
interpolate. -/
def quantileLinear (xs : List ℚ) (q : ℚ) : ℚ :=
  quantileSorted (List.insertionSort (· ≤ ·) xs) q

/-- The failure of `playtime_hist` on an empty subset: `describe()` yields
a NaN mean, and `round(nan)` raises `ValueError` ("cannot convert float
NaN to integer") at line 96 before any chart is drawn. -/
inductive PyError where
  | valueErrorNaN
deriving Repr, DecidableEq

/-- The summary displayed by `playtime_hist` (lines 95-99, 105): the
rounded mean, median and quartiles of `playtime_hours`, and the title of
the first row. -/
structure HistStats where
  mean_hours : ℤ
  median_hours : ℤ
  p25_hours : ℤ
  p75_hours : ℤ
  title : String
deriving Repr, DecidableEq

/-- `playtime_hist(df)` (lines 91-106) restricted to its data content: on
an empty subset, `round` of the NaN mean raises; otherwise the rounded
mean (line 96), median (line 97) and 25%/75% percentiles (line 98) of
`playtime_hours` and the first row's title (line 99).  The figure itself is
out of scope (the spec delegates chart rendering to the plotting
library). -/
def playtime_hist (rows : List ReviewRow) : Except PyError HistStats :=
  let hours := rows.map fun r => r.playtime_hours
  if hours.length = 0 then .error .valueErrorNaN
  else
    .ok { mean_hours := pyRound (listMean hours)
          median_hours := pyRound (quantileLinear hours (1 / 2))
          p25_hours := pyRound (quantileLinear hours (1 / 4))
          p75_hours := pyRound (quantileLinear hours (3 / 4))
          title := (rows.map fun r => r.title).getD 0 "" }

/-! ### The review score of the submit path (`main`, lines 133-135) -/

/-- A Python float as it appears on the submit path: a number, or NaN. -/
inductive PyFloat where
  | nan
  | val (x : ℚ)
deriving Repr, DecidableEq

/-- `review_score = positive / (positive + negative)` (line 134).  The
operands are numpy int64 scalars (values of the catalog dataframe's int64
columns), so the 0/0 division of an entry without any votes does not
raise: numpy emits a RuntimeWarning and the result is NaN. -/
def review_score (g : GameRecord) : PyFloat :=
  if g.positive + g.negative = 0 then .nan
  else .val ((g.positive : ℚ) / ((g.positive : ℚ) + (g.negative : ℚ)))

/-- The percentage displayed at line 135, `round(review_score * 100, 2)`:
`nan * 100` is NaN and `round` with an ndigits argument returns NaN
unchanged, so the page shows "nan%" and the submit cycle continues;
otherwise the percentage rounded to two decimals. -/
def review_score_pct (g : GameRecord) : PyFloat :=
  match review_score g with
  | .nan => .nan
  | .val v => .val (((pyRound (v * 100 * 100) : ℤ) : ℚ) / 100)

/-! ### Concrete scenario data -/

/-- A review used in concrete scenarios. -/
def rev1 : Review := { author := { playtime_forever := 120 }, voted_up := true }

/-- A second review used in concrete scenarios. -/
def rev2 : Review := { author := { playtime_forever := 0 }, voted_up := false }

/-- The two-page scenario of §8: first page status 200 with cursor "AAA"
and 100 reviews, second page status 200 with no cursor and 50 reviews. -/
def c1pages : List ServerResp :=
  [ { status_code := 200,
      body := some { cursor := some "AAA", reviews := List.replicate 100 rev1 } },
    { status_code := 200,
      body := some { cursor := none, reviews := List.replicate 50 rev2 } } ]

/-- An endless server stream whose every page carries the truthy cursor
"A" and an empty review list. -/
def c2pages : Nat → Response :=
  fun _ => { cursor := some "A", reviews := [] }

/-- An endless server stream whose every page carries the truthy cursor
"A" and one review. -/
def c2pagesGood : Nat → Response :=
  fun _ => { cursor := some "A", reviews := [rev1] }

/-- A server with three one-review pages, each with a truthy cursor. -/
def c4pages : List ServerResp :=
  List.replicate 3
    { status_code := 200,
      body := some { cursor := some "A", reviews := [rev1] } }

/-- A server answering a single page with no cursor and one review. -/
def c3pagesB : List ServerResp :=
  [ { status_code := 200,
      body := some { cursor := none, reviews := [rev2] } } ]

/-- One submit cycle under Streamlit's execution model: the framework
re-executes the whole script for every interaction, so line 8 re-creates
the module-level `params` (cursor `"*"`) before `main` runs and calls
`get_user_reviews` with it (line 136) — the line-26 comment ("Do this
once, could probably keep in st.session_state") relies on exactly this
rerun model.  Each submit's fetch therefore starts from the fresh
module-level `params` value; the in-place cursor mutation of line 67 dies
with the run. -/
def run_submit (pages : List ServerResp) (max_revs : Nat) : FetchOut :=
  get_user_reviews pages params max_revs

/-- A session of two consecutive submits: each re-runs the script, so no
value — in particular no cursor — flows from the first fetch operation
into the second. -/
def two_submits (pages1 : List ServerResp) (m1 : Nat)
    (pages2 : List ServerResp) (m2 : Nat) : FetchOut × FetchOut :=
  (run_submit pages1 m1, run_submit pages2 m2)

/-- The catalog record of the §8 search scenario. -/
def halfLife : GameRecord := load_game_record 10 "Half-Life" 90 10

/-- A catalog record whose lowercase name "abc" is matched by the regex
query "a.c" although it does not contain it literally. -/
def abcGame : GameRecord := load_game_record 7 "ABC" 1 1

/-- A catalog entry with zero positive and zero negative votes. -/
def zeroVotes : GameRecord := load_game_record 99 "Ghost Game" 0 0

/-! ## Theorems -/

/-- A successful page fetch returns exactly the parsed body: the helper
answers `.ok r` only when the status is 200 and the body parsed to `r`. -/
theorem get_user_reviews_helper_ok (pg : ServerResp) (r : Response)
    (h : get_user_reviews_helper pg = .ok r) :
    pg.status_code = 200 ∧ pg.body = some r := by
  by_cases hs : pg.status_code = 200
  · refine ⟨hs, ?_⟩
    cases hb : pg.body with
    | none => simp [get_user_reviews_helper, hs, hb] at h
    | some x => simpa [get_user_reviews_helper, hs, hb] using h
  · simp [get_user_reviews_helper, hs] at h

/-- C1 counterexample: in the §8 two-page scenario (first page cursor
"AAA" with 100 reviews, second page without cursor and 50 reviews,
`max_count = 200`) the loop of `get_user_reviews` returns 100 reviews, not
the 150 the claim states: the 50 reviews of the cursor-less page are
dropped, because line 64 breaks before line 65 appends. -/
theorem c1_counterexample :
    (resultRevs (get_user_reviews c1pages params 200)).length = 100 ∧
    ¬ (resultRevs (get_user_reviews c1pages params 200)).length = 150 := by
  decide

/-- C1 (amended): in the §8 two-page scenario with `max_count = 200` the
fetch issues exactly two requests (so the loop terminates after the second
page) and returns the 100 reviews of the first page; in general, when a
page's cursor is absent or empty the loop stops WITHOUT appending that
page's reviews (the `break` of line 64 precedes the `extend` of line 65). -/
theorem c1_cursor_end_behavior :
    ((resultRevs (get_user_reviews c1pages params 200)).length = 100 ∧
      (get_user_reviews c1pages params 200).requests = ["*", "AAA"]) ∧
    (∀ (max_revs : Nat) (revs : List Review) (p : Params) (reqs : List String)
        (resp : Response) (rest : List ServerResp),
      revs.length < max_revs - 1 →
      resp.cursor = none ∨ resp.cursor = some "" →
      get_user_reviews_go max_revs revs p reqs
          ({ status_code := 200, body := some resp } :: rest) =
        ⟨reqs ++ [p.cursor], p, .ok revs⟩) := by
  refine ⟨⟨by decide, by decide⟩, ?_⟩
  intro max_revs revs p reqs resp rest hguard hcur
  rcases hcur with h | h <;>
    simp [get_user_reviews_go, get_user_reviews_helper, hguard, h]

/-- Witness for C1: a page whose cursor is absent ends the loop with the
accumulator unchanged, its own reviews dropped. -/
theorem c1_cursor_end_behavior_witness :
    get_user_reviews_go 2 [] params []
        [{ status_code := 200, body := some { cursor := none, reviews := [rev2] } }] =
      ⟨["*"], params, .ok []⟩ :=
  c1_cursor_end_behavior.2 2 [] params []
    { cursor := none, reviews := [rev2] } [] (by decide) (Or.inl rfl)

/-- Every request sequence the loop produces extends the already-issued
list, and the first newly issued request carries the cursor the loop was
entered with. -/
theorem fetch_go_requests (pages : List ServerResp) :
    ∀ (max_revs : Nat) (revs : List Review) (p : Params) (reqs : List String),
      (get_user_reviews_go max_revs revs p reqs pages).requests = reqs ∨
      ∃ suffix, (get_user_reviews_go max_revs revs p reqs pages).requests
          = reqs ++ (p.cursor :: suffix) := by
  induction pages with
  | nil => intro max_revs revs p reqs; left; rfl
  | cons page rest ih =>
    intro max_revs revs p reqs
    by_cases hg : revs.length < max_revs - 1
    · cases hh : get_user_reviews_helper page with
      | error e =>
        right
        exact ⟨[], by simp [get_user_reviews_go, hg, hh]⟩
      | ok response =>
        cases hc : response.cursor with
        | none =>
          right
          exact ⟨[], by simp [get_user_reviews_go, hg, hh, hc]⟩
        | some c =>
          by_cases hce : c = ""
          · right
            exact ⟨[], by simp [get_user_reviews_go, hg, hh, hc, hce]⟩
          · have hstep : get_user_reviews_go max_revs revs p reqs (page :: rest)
                = get_user_reviews_go max_revs (revs ++ response.reviews)
                    { p with cursor := c } (reqs ++ [p.cursor]) rest := by
              simp [get_user_reviews_go, hg, hh, hc, hce]
            rcases ih max_revs (revs ++ response.reviews)
                { p with cursor := c } (reqs ++ [p.cursor]) with h1 | ⟨suffix, h2⟩
            · right
              refine ⟨[], ?_⟩
              rw [hstep, h1]
            · right
              refine ⟨c :: suffix, ?_⟩
              rw [hstep, h2]
              simp
    · left
      simp [get_user_reviews_go, hg]

/-- C3: separate invocations of the fetch are stateless with respect to
one another.  Streamlit re-executes the script on every interaction, so
each submit's fetch starts from the freshly re-created module-level
`params` whose cursor is the wildcard "*": the second submit of any
two-submit session is exactly a fresh fetch — no value from the first
reaches it — and every submit's first HTTP request, whenever one is issued
at all, carries the wildcard cursor "*", whatever any previous fetch
did. -/
theorem c3_stateless :
    params.cursor = "*" ∧
    (∀ (pages1 : List ServerResp) (m1 : Nat)
        (pages2 : List ServerResp) (m2 : Nat),
      (two_submits pages1 m1 pages2 m2).2 = run_submit pages2 m2) ∧
    (∀ (pages : List ServerResp) (max_revs : Nat),
      (run_submit pages max_revs).requests = [] ∨
      (run_submit pages max_revs).requests.head? = some "*") := by
  refine ⟨rfl, fun _ _ _ _ => rfl, ?_⟩
  intro pages max_revs
  rcases fetch_go_requests pages max_revs [] params [] with h | ⟨suffix, h⟩
  · left
    exact h
  · right
    rw [show (run_submit pages max_revs).requests
        = (get_user_reviews_go max_revs [] params [] pages).requests from rfl, h]
    rfl

/-- C6: whenever the loop issues a request and the endpoint answers with a
non-200 status `s`, `get_user_reviews` raises immediately: the outcome is
the fetch error carrying `s`, no review list is returned, and the request
list ends with that single failing request — the remaining server answers
`rest` are never consulted (no retry). -/
theorem c6_non200_raises (max_revs : Nat) (revs : List Review) (p : Params)
    (reqs : List String) (s : Nat) (body : Option Response)
    (rest : List ServerResp)
    (hguard : revs.length < max_revs - 1) (hs : s ≠ 200) :
    get_user_reviews_go max_revs revs p reqs
        ({ status_code := s, body := body } :: rest) =
      ⟨reqs ++ [p.cursor], p, .error (.remoteFetch s)⟩ := by
  simp [get_user_reviews_go, get_user_reviews_helper, hguard, hs]

/-- Witness for C6: the §8 scenario — the endpoint answers status 500 to
the first request, the fetch raises the error carrying 500, no reviews. -/
theorem c6_non200_raises_witness :
    get_user_reviews_go 200 [] params [] [{ status_code := 500, body := none }] =
      ⟨["*"], params, .error (.remoteFetch 500)⟩ :=
  c6_non200_raises 200 [] params [] 500 none [] (by decide) (by decide)

/-- C7 counterexample: on an empty subset `playtime_hist` does not fail
with a dedicated empty-subset error — the failure it produces is the
`ValueError` that Python's `round` raises on the NaN mean `describe()`
yields for an empty series (line 96); no `EmptySubsetError` exists in the
program. -/
theorem c7_counterexample :
    playtime_hist [] = .error PyError.valueErrorNaN := rfl

/-- C7 (amended): on every empty row subset `playtime_hist` fails before
drawing any chart, but with the NaN-conversion `ValueError` from
`round(mean)` rather than a dedicated `EmptySubsetError`; conversely that
error arises only on the empty subset. -/
theorem c7_empty_subset (rows : List ReviewRow) :
    (rows = [] → playtime_hist rows = .error PyError.valueErrorNaN) ∧
    (∀ e, playtime_hist rows = .error e →
      rows = [] ∧ e = PyError.valueErrorNaN) := by
  constructor
  · rintro rfl; rfl
  · intro e he
    cases rows with
    | nil => exact ⟨rfl, by cases e; rfl⟩
    | cons a l => simp [playtime_hist] at he

/-- Witness for C7: the empty subset triggers exactly the NaN-round
failure. -/
theorem c7_empty_subset_witness :
    playtime_hist ([] : List ReviewRow) = .error PyError.valueErrorNaN ∧
    (([] : List ReviewRow) = [] ∧
      PyError.valueErrorNaN = PyError.valueErrorNaN) :=
  ⟨(c7_empty_subset []).1 rfl,
    (c7_empty_subset []).2 PyError.valueErrorNaN ((c7_empty_subset []).1 rfl)⟩

/-- C8 counterexample: `parse_reviews` does not succeed on every list of
well-formed raw reviews — on the empty list (reachable whenever the first
page's cursor is falsy, since the fetch then returns `[]`),
`pd.DataFrame([])` has no `playtime` column and line 87 raises
`AttributeError`. -/
theorem c8_counterexample :
    parse_reviews [] "X" = .error ParseErr.attributeError := rfl

/-- C8 (amended): on every NON-EMPTY list of well-formed raw reviews and
every title, `parse_reviews` succeeds and yields one row per raw review in
input order: the output length equals the input length, the `k`-th row
takes its minutes from the `k`-th review's `author.playtime_forever`, its
hours are exactly minutes / 60, `voted_up` is preserved, every row carries
the given title, and a second application to the same input yields the
identical output.  (On the empty list line 87 raises `AttributeError`.) -/
theorem c8_parse_reviews (reviews : List Review) (title : String) (k : Nat)
    (hne : reviews ≠ []) (hk : k < reviews.length) :
    ∃ rows, parse_reviews reviews title = Except.ok rows ∧
      rows.length = reviews.length ∧
      (rows.getD k dRow).playtime
          = (reviews.getD k dRev).author.playtime_forever ∧
      (rows.getD k dRow).playtime_hours
          = ((reviews.getD k dRev).author.playtime_forever : ℚ) / 60 ∧
      (rows.getD k dRow).voted_up = (reviews.getD k dRev).voted_up ∧
      (rows.getD k dRow).title = title ∧
      parse_reviews reviews title = parse_reviews reviews title := by
  have hemp : reviews.isEmpty = false := by
    cases reviews with
    | nil => exact absurd rfl hne
    | cons a l => rfl
  have hok : parse_reviews reviews title
      = Except.ok (reviews.map fun i =>
          ({ playtime := i.author.playtime_forever
             voted_up := i.voted_up
             title := title
             playtime_hours := (i.author.playtime_forever : ℚ) / 60 }
           : ReviewRow)) := by
    simp [parse_reviews, hemp]
  have hk2 : k < (reviews.map fun i =>
      ({ playtime := i.author.playtime_forever
         voted_up := i.voted_up
         title := title
         playtime_hours := (i.author.playtime_forever : ℚ) / 60 }
       : ReviewRow)).length := by
    rw [List.length_map]
    exact hk
  refine ⟨_, hok, List.length_map _ _, ?_, ?_, ?_, ?_, rfl⟩
  all_goals rw [List.getD_eq_getElem _ _ hk2]
  all_goals try rw [List.getD_eq_getElem _ _ hk]
  all_goals simp

/-- Witness for C8: the §8 transform scenario — reviews with 120 and 0
minutes and title "X" give rows with 2.0 and 0.0 hours. -/
theorem c8_parse_reviews_witness :
    ∃ rows, parse_reviews [rev1, rev2] "X" = Except.ok rows ∧
      rows.length = [rev1, rev2].length ∧
      (rows.getD 0 dRow).playtime
          = ([rev1, rev2].getD 0 dRev).author.playtime_forever ∧
      (rows.getD 0 dRow).playtime_hours
          = (([rev1, rev2].getD 0 dRev).author.playtime_forever : ℚ) / 60 ∧
      (rows.getD 0 dRow).voted_up = ([rev1, rev2].getD 0 dRev).voted_up ∧
      (rows.getD 0 dRow).title = "X" ∧
      parse_reviews [rev1, rev2] "X" = parse_reviews [rev1, rev2] "X" :=
  c8_parse_reviews [rev1, rev2] "X" 0 (by decide) (by decide)

/-- C10 counterexample: a catalog entry with zero positive and zero
negative votes does not make the submit path fail with a division by zero:
the numpy int64 division 0/0 yields NaN (with only a RuntimeWarning),
`round(nan, 2)` keeps NaN, so the page displays "nan%" and the submit
cycle continues — there is no raised error on this path. -/
theorem c10_counterexample :
    review_score zeroVotes = PyFloat.nan ∧
    review_score_pct zeroVotes = PyFloat.nan := ⟨rfl, rfl⟩

/-- C10 (amended): the review score displayed on submit equals
`positive / (positive + negative)` for the chosen catalog entry whenever
at least one vote exists; for an entry whose two vote counts are both zero
the numpy division yields NaN rather than raising, the displayed
percentage is NaN ("nan%"), and the submit path continues — an edge case
the spec does not mention. -/
theorem c10_review_score (g : GameRecord) :
    (0 < g.positive + g.negative →
      review_score g
        = PyFloat.val
            ((g.positive : ℚ) / ((g.positive : ℚ) + (g.negative : ℚ)))) ∧
    (g.positive = 0 → g.negative = 0 →
      review_score g = PyFloat.nan ∧ review_score_pct g = PyFloat.nan) := by
  constructor
  · intro h
    simp [review_score, Nat.pos_iff_ne_zero.mp h]
  · intro h1 h2
    simp [review_score, review_score_pct, h1, h2]

/-- On the stream whose every page has a truthy cursor and no reviews, the
loop state never changes except for the page index. -/
theorem c2pages_iter (n : Nat) : fetchIter c2pages 2 n = (n, []) := by
  induction n with
  | zero => rfl
  | succ n ih =>
    simp [fetchIter, ih, fetchStep, fetchHalts, pageFalsy, c2pages]

/-- C2 counterexample: the pagination loop does not terminate on every
well-formed response stream — on the stream whose every page carries the
truthy cursor "A" and an empty review list, with `max_count = 2`, the
accumulator never grows, the guard `len(revs) < max_revs - 1` stays true,
no cursor is ever falsy, and the loop runs forever. -/
theorem c2_counterexample : ¬ FetchTerminates c2pages 2 := by
  rintro ⟨n, hn⟩
  rw [c2pages_iter] at hn
  simp [fetchHalts, pageFalsy, c2pages] at hn

/-- Once the loop has halted, iterating further leaves the state fixed. -/
theorem fetchIter_halt_persist (pages : Nat → Response) (max_revs n : Nat)
    (h : fetchHalts pages max_revs (fetchIter pages max_revs n) = true) :
    fetchIter pages max_revs (n + 1) = fetchIter pages max_revs n := by
  simp [fetchIter, fetchStep, h]

/-- Progress invariant of the loop: after `n` iterations the loop has
either halted or accumulated at least `n` reviews — provided every page
with a truthy cursor carries at least one review. -/
theorem fetchIter_progress (pages : Nat → Response) (max_revs : Nat)
    (hprod : ∀ k, pageFalsy (pages k) = false → (pages k).reviews ≠ [])
    (n : Nat) :
    fetchHalts pages max_revs (fetchIter pages max_revs n) = true ∨
      n ≤ (fetchIter pages max_revs n).2.length := by
  induction n with
  | zero => exact Or.inr (Nat.zero_le _)
  | succ n ih =>
    rcases ih with hh | hlen
    · left
      rw [fetchIter_halt_persist pages max_revs n hh]
      exact hh
    · cases hh : fetchHalts pages max_revs (fetchIter pages max_revs n) with
      | true =>
        left
        rw [fetchIter_halt_persist pages max_revs n hh]
        exact hh
      | false =>
        right
        have hcur : pageFalsy (pages (fetchIter pages max_revs n).1) = false := by
          simp [fetchHalts] at hh
          exact hh.2
        have hrev : (pages (fetchIter pages max_revs n).1).reviews ≠ [] :=
          hprod _ hcur
        have hpos : 1 ≤ (pages (fetchIter pages max_revs n).1).reviews.length :=
          Nat.one_le_iff_ne_zero.mpr (by
            intro h0
            exact hrev (List.length_eq_zero.mp h0))
        have : fetchIter pages max_revs (n + 1)
            = ((fetchIter pages max_revs n).1 + 1,
               (fetchIter pages max_revs n).2
                 ++ (pages (fetchIter pages max_revs n).1).reviews) := by
          simp [fetchIter, fetchStep, hh]
        rw [this]
        simp only [List.length_append]
        omega

/-- C2 (amended): the pagination loop terminates on every well-formed
response stream in which each page with a truthy cursor carries at least
one review: either some page's cursor is falsy, or the accumulated count
reaches the `max_revs - 1` guard after at most `max_revs` iterations.
(Without that non-empty-page condition the loop can run forever — see the
counterexample.) -/
theorem c2_terminates (pages : Nat → Response) (max_revs : Nat)
    (hprod : ∀ k, pageFalsy (pages k) = false → (pages k).reviews ≠ []) :
    FetchTerminates pages max_revs := by
  rcases fetchIter_progress pages max_revs hprod max_revs with hh | hlen
  · exact ⟨max_revs, hh⟩
  · refine ⟨max_revs, ?_⟩
    simp only [fetchHalts, Bool.or_eq_true, Bool.not_eq_eq_eq_not, Bool.not_true,
      decide_eq_false_iff_not]
    left
    omega

/-- Witness for C2: the loop terminates on the stream whose every page has
a truthy cursor and one review. -/
theorem c2_terminates_witness : FetchTerminates c2pagesGood 2 :=
  c2_terminates c2pagesGood 2
    (fun k _ => by simp [c2pagesGood])

/-- Compiling a query without regex metacharacters yields the
literal-token pattern. -/
theorem compilePat_lit (cs : List Char)
    (h : ∀ c ∈ cs, c ≠ '.' ∧ c ∉ regexMeta) :
    compilePat cs = some (cs.map RTok.lit) := by
  induction cs with
  | nil => rfl
  | cons c cs ih =>
    have hc := h c (List.mem_cons_self c cs)
    have ih2 := ih fun x hx => h x (List.mem_cons_of_mem c hx)
    simp [compilePat, hc.1, hc.2, ih2]

/-- On literal-token patterns, prefix regex matching is literal prefix
matching. -/
theorem matchHere_lit (l : List Char) (cs : List Char) :
    matchHere (l.map RTok.lit) cs = litHere l cs := by
  induction l generalizing cs with
  | nil => cases cs <;> rfl
  | cons a as ih =>
    cases cs with
    | nil => rfl
    | cons c cs2 => simp [matchHere, litHere, tokMatch, ih]

/-- On literal-token patterns, regex search is literal substring search. -/
theorem searchFrom_lit (l : List Char) (s : List Char) :
    searchFrom (l.map RTok.lit) s = litFrom l s := by
  induction s with
  | nil => simp [searchFrom, litFrom, matchHere_lit]
  | cons c cs ih => simp [searchFrom, litFrom, matchHere_lit, ih]

/-- The empty pattern matches every string. -/
theorem searchFrom_nil (s : List Char) : searchFrom [] s = true := by
  cases s <;> simp [searchFrom, matchHere]

/-- C5 counterexample: the pandas `str.contains` used by
`get_steam_app_id` treats the query as a regular expression (its default),
not as a literal substring: the query "A.C" matches the catalog entry
named "ABC" — which is returned — although the lowercase name "abc" does
not contain the literal substring "a.c". -/
theorem c5_counterexample :
    get_steam_app_id [abcGame] "A.C" = some [("ABC", 7)] ∧
    literalSubstr abcGame.name_lowercase "a.c" = false := by
  decide

/-- C5 (amended): `get_steam_app_id` matches the lowered query against
each record's lowercase name by regular-expression search; for every query
whose lowered form contains no regex metacharacter this coincides with
literal substring containment, the matches come in catalog order, the
empty query matches every record, and the search succeeds.  (For general
queries the regex semantics can both accept non-substrings and fail on
invalid patterns.) -/
theorem c5_search (df : List GameRecord) (q : String)
    (hq : ∀ c ∈ (pyLower q).toList, c ≠ '.' ∧ c ∉ regexMeta) :
    get_steam_app_id df q =
      some ((df.filter fun g => literalSubstr g.name_lowercase (pyLower q)).map
        fun g => (g.name, g.appid)) ∧
    get_steam_app_id df "" = some (df.map fun g => (g.name, g.appid)) := by
  constructor
  · simp only [get_steam_app_id, compilePat_lit _ hq, Option.map_some',
      Option.some.injEq]
    congr 1
    apply List.filter_congr
    intro g _
    rw [searchFrom_lit]
    rfl
  · have hnil : (pyLower "").toList = [] := rfl
    simp only [get_steam_app_id, hnil, compilePat, Option.map_some',
      Option.some.injEq]
    have : (df.filter fun g => searchFrom [] g.name_lowercase.toList) = df :=
      List.filter_eq_self.mpr fun g _ => searchFrom_nil _
    rw [this]

/-- Witness for C5: the §8 scenario — searching "half" in a catalog
holding the Half-Life record returns exactly that record. -/
theorem c5_search_witness :
    (get_steam_app_id [halfLife] "half" =
      some (([halfLife].filter
          fun g => literalSubstr g.name_lowercase (pyLower "half")).map
        fun g => (g.name, g.appid)) ∧
    get_steam_app_id [halfLife] "" =
      some ([halfLife].map fun g => (g.name, g.appid))) :=
  c5_search [halfLife] "half" (by decide)

/-- Upper bound of the accumulator: a page is only appended while the
accumulator holds at most `max_revs - 2` reviews, so the returned list
never exceeds `max_revs - 2` plus one page (given a bound `B` on the page
sizes), whatever the starting accumulator. -/
theorem fetch_go_length_le (pages : List ServerResp) (max_revs B : Nat) :
    ∀ (revs : List Review) (p : Params) (reqs : List String),
      (∀ pg ∈ pages, (pageReviews pg).length ≤ B) →
      (resultRevs (get_user_reviews_go max_revs revs p reqs pages)).length
        ≤ max revs.length (max_revs - 2 + B) := by
  induction pages with
  | nil =>
    intro revs p reqs _
    simp [get_user_reviews_go, resultRevs]
  | cons page rest ih =>
    intro revs p reqs hB
    by_cases hg : revs.length < max_revs - 1
    · cases hh : get_user_reviews_helper page with
      | error e => simp [get_user_reviews_go, hg, hh, resultRevs]
      | ok response =>
        have hbody := (get_user_reviews_helper_ok page response hh).2
        have hrB : response.reviews.length ≤ B := by
          have := hB page (List.mem_cons_self _ _)
          simpa [pageReviews, hbody] using this
        cases hc : response.cursor with
        | none =>
          simp [get_user_reviews_go, hg, hh, hc, resultRevs]
        | some c =>
          by_cases hce : c = ""
          · simp [get_user_reviews_go, hg, hh, hc, hce, resultRevs]
          · have hstep : get_user_reviews_go max_revs revs p reqs (page :: rest)
                = get_user_reviews_go max_revs (revs ++ response.reviews)
                    { p with cursor := c } (reqs ++ [p.cursor]) rest := by
              simp [get_user_reviews_go, hg, hh, hc, hce]
            rw [hstep]
            have hrec := ih (revs ++ response.reviews) { p with cursor := c }
              (reqs ++ [p.cursor])
              (fun pg hpg => hB pg (List.mem_cons_of_mem _ hpg))
            refine le_trans hrec (max_le ?_ (le_max_right _ _))
            have : (revs ++ response.reviews).length ≤ max_revs - 2 + B := by
              simp only [List.length_append]
              omega
            exact le_trans this (le_max_right _ _)
    · simp [get_user_reviews_go, hg, resultRevs]

/-- A page whose cursor is falsy ends the fetch: the server answers after
it are never consulted. -/
theorem fetch_go_stops_at_falsy (max_revs : Nat) (revs : List Review)
    (p : Params) (reqs : List String) (resp : Response)
    (rest : List ServerResp) (hf : pageFalsy resp = true) :
    get_user_reviews_go max_revs revs p reqs
        ({ status_code := 200, body := some resp } :: rest) =
      get_user_reviews_go max_revs revs p reqs
        [{ status_code := 200, body := some resp }] := by
  by_cases hg : revs.length < max_revs - 1
  · cases hc : resp.cursor with
    | none => simp [get_user_reviews_go, get_user_reviews_helper, hg, hc]
    | some c =>
      have hce : c = "" := by simpa [pageFalsy, hc] using hf
      simp [get_user_reviews_go, get_user_reviews_helper, hg, hc, hce]
  · simp [get_user_reviews_go, hg]

/-- Lower bound of the accumulator: while every page is well formed with a
truthy cursor and at least one review, each iteration consumes one page
and grows the accumulator, so the loop returns at least
`min (max_revs - 1) (pages supplied)` reviews. -/
theorem fetch_go_length_ge (pages : List ServerResp) (max_revs : Nat) :
    ∀ (revs : List Review) (p : Params) (reqs : List String),
      (∀ pg ∈ pages, pg.status_code = 200 ∧
        ∃ r, pg.body = some r ∧ pageFalsy r = false ∧ r.reviews ≠ []) →
      min (max_revs - 1) (revs.length + pages.length)
        ≤ (resultRevs (get_user_reviews_go max_revs revs p reqs pages)).length := by
  induction pages with
  | nil =>
    intro revs p reqs _
    simp [get_user_reviews_go, resultRevs]
  | cons page rest ih =>
    intro revs p reqs h
    obtain ⟨hs, r, hb, hfal, hne⟩ := h page (List.mem_cons_self _ _)
    by_cases hg : revs.length < max_revs - 1
    · obtain ⟨c, hc, hcne⟩ : ∃ c, r.cursor = some c ∧ c ≠ "" := by
        cases hcc : r.cursor with
        | none => simp [pageFalsy, hcc] at hfal
        | some c => exact ⟨c, rfl, by simpa [pageFalsy, hcc] using hfal⟩
      have hstep : get_user_reviews_go max_revs revs p reqs (page :: rest)
          = get_user_reviews_go max_revs (revs ++ r.reviews)
              { p with cursor := c } (reqs ++ [p.cursor]) rest := by
        simp [get_user_reviews_go, get_user_reviews_helper, hg, hs, hb, hc, hcne]
      rw [hstep]
      have hrec := ih (revs ++ r.reviews) { p with cursor := c }
        (reqs ++ [p.cursor]) (fun pg hpg => h pg (List.mem_cons_of_mem _ hpg))
      refine le_trans (min_le_min le_rfl ?_) hrec
      have h1 : 1 ≤ r.reviews.length :=
        Nat.one_le_iff_ne_zero.mpr
          (fun h0 => hne (List.length_eq_zero.mp h0))
      simp only [List.length_append, List.length_cons]
      omega
    · have hle : max_revs - 1 ≤ revs.length := Nat.le_of_not_lt hg
      have hres : get_user_reviews_go max_revs revs p reqs (page :: rest)
          = ⟨reqs, p, .ok revs⟩ := by
        simp [get_user_reviews_go, hg]
      rw [hres]
      exact le_trans (min_le_left _ _) hle

/-- C4 counterexample: `get_user_reviews` can return fewer reviews than
are available up to `max_count` even though the server never returns a
falsy cursor and never runs out of pages: with `max_count = 2` and a
server holding three one-review pages with truthy cursors, the guard
`len(revs) < max_revs - 1` stops the loop after a single review. -/
theorem c4_counterexample :
    (resultRevs (get_user_reviews c4pages params 2)).length = 1 ∧
    ¬ 2 ≤ (resultRevs (get_user_reviews c4pages params 2)).length := by
  decide

/-- C4 (amended): for every `max_count`, (i) the returned sequence holds
at most `max_count - 2` reviews plus one page of overshoot (so at most
`max_count` plus one page, as claimed); (ii) the fetch stops requesting as
soon as a page's cursor is falsy — later server answers are never
consulted; (iii) while the server keeps answering well-formed non-empty
pages with truthy cursors it returns at least `min (max_count - 1)
(pages supplied)` reviews — one short of `max_count`, not `max_count`
itself, because the guard is `len(revs) < max_revs - 1`. -/
theorem c4_fetch_bounds :
    (∀ (pages : List ServerResp) (p : Params) (max_revs B : Nat),
      (∀ pg ∈ pages, (pageReviews pg).length ≤ B) →
      (resultRevs (get_user_reviews pages p max_revs)).length
        ≤ max_revs - 2 + B) ∧
    (∀ (max_revs : Nat) (revs : List Review) (p : Params)
        (reqs : List String) (resp : Response) (rest : List ServerResp),
      pageFalsy resp = true →
      get_user_reviews_go max_revs revs p reqs
          ({ status_code := 200, body := some resp } :: rest) =
        get_user_reviews_go max_revs revs p reqs
          [{ status_code := 200, body := some resp }]) ∧
    (∀ (pages : List ServerResp) (p : Params) (max_revs : Nat),
      (∀ pg ∈ pages, pg.status_code = 200 ∧
        ∃ r, pg.body = some r ∧ pageFalsy r = false ∧ r.reviews ≠ []) →
      min (max_revs - 1) pages.length
        ≤ (resultRevs (get_user_reviews pages p max_revs)).length) := by
  refine ⟨?_, fetch_go_stops_at_falsy, ?_⟩
  · intro pages p max_revs B hB
    have := fetch_go_length_le pages max_revs B [] p [] hB
    simpa [get_user_reviews] using this
  · intro pages p max_revs h
    have := fetch_go_length_ge pages max_revs [] p [] h
    simpa [get_user_reviews] using this

/-- Witness for C4: the bounds at `max_count = 2` on the three-page
one-review-per-page server, and the stop-at-falsy-cursor equation on a
cursor-less page. -/
theorem c4_fetch_bounds_witness :
    (resultRevs (get_user_reviews c4pages params 2)).length ≤ 2 - 2 + 1 ∧
    get_user_reviews_go 2 [] params []
        ({ status_code := 200,
           body := some { cursor := none, reviews := [rev2] } } :: c3pagesB) =
      get_user_reviews_go 2 [] params []
        [{ status_code := 200,
           body := some { cursor := none, reviews := [rev2] } }] ∧
    min (2 - 1) c4pages.length
      ≤ (resultRevs (get_user_reviews c4pages params 2)).length :=
  ⟨c4_fetch_bounds.1 c4pages params 2 1 (by decide),
    c4_fetch_bounds.2.1 2 [] params []
      { cursor := none, reviews := [rev2] } c3pagesB rfl,
    c4_fetch_bounds.2.2 c4pages params 2 (by
      intro pg hpg
      simp only [c4pages, List.mem_replicate] at hpg
      rw [hpg.2]
      exact ⟨rfl, { cursor := some "A", reviews := [rev1] }, rfl, rfl,
        by decide⟩)⟩

/-- Witness for C10: the Half-Life record scores 90/100; a record with
zero votes in both directions yields NaN, displayed as "nan%". -/
theorem c10_review_score_witness :
    review_score halfLife
      = PyFloat.val ((halfLife.positive : ℚ)
          / ((halfLife.positive : ℚ) + (halfLife.negative : ℚ))) ∧
    (review_score zeroVotes = PyFloat.nan ∧
      review_score_pct zeroVotes = PyFloat.nan) :=
  ⟨(c10_review_score halfLife).1 (by decide),
    (c10_review_score zeroVotes).2 rfl rfl⟩


/-- Folding `min` over a list never exceeds the initial value. -/
theorem foldl_min_le_init (as : List ℚ) : ∀ a : ℚ, as.foldl min a ≤ a := by
  induction as with
  | nil => intro a; exact le_refl a
  | cons b bs ih =>
    intro a
    exact le_trans (ih (min a b)) (min_le_left a b)

/-- Folding `min` over a list is at most any member of the list. -/
theorem foldl_min_le_mem (as : List ℚ) :
    ∀ (a x : ℚ), x ∈ as → as.foldl min a ≤ x := by
  induction as with
  | nil => intro a x hx; cases hx
  | cons b bs ih =>
    intro a x hx
    rcases List.mem_cons.mp hx with rfl | hx2
    · exact le_trans (foldl_min_le_init bs (min a x)) (min_le_right a x)
    · exact ih (min a b) x hx2

/-- The initial value never exceeds a `max`-fold. -/
theorem init_le_foldl_max (as : List ℚ) : ∀ a : ℚ, a ≤ as.foldl max a := by
  induction as with
  | nil => intro a; exact le_refl a
  | cons b bs ih =>
    intro a
    exact le_trans (le_max_left a b) (ih (max a b))

/-- Any member of the list is at most a `max`-fold over it. -/
theorem mem_le_foldl_max (as : List ℚ) :
    ∀ (a x : ℚ), x ∈ as → x ≤ as.foldl max a := by
  induction as with
  | nil => intro a x hx; cases hx
  | cons b bs ih =>
    intro a x hx
    rcases List.mem_cons.mp hx with rfl | hx2
    · exact le_trans (le_max_right a x) (init_le_foldl_max bs (max a x))
    · exact ih (max a b) x hx2

/-- The observed minimum is at most every member. -/
theorem listMinD_le_mem (xs : List ℚ) (x : ℚ) (hx : x ∈ xs) :
    listMinD xs ≤ x := by
  cases xs with
  | nil => cases hx
  | cons a as =>
    rcases List.mem_cons.mp hx with rfl | hx2
    · exact foldl_min_le_init as x
    · exact foldl_min_le_mem as a x hx2

/-- Every member is at most the observed maximum. -/
theorem mem_le_listMaxD (xs : List ℚ) (x : ℚ) (hx : x ∈ xs) :
    x ≤ listMaxD xs := by
  cases xs with
  | nil => cases hx
  | cons a as =>
    rcases List.mem_cons.mp hx with rfl | hx2
    · exact init_le_foldl_max as x
    · exact mem_le_foldl_max as a x hx2

/-- The mean of a non-empty list lies between its observed minimum and
maximum. -/
theorem listMean_bounds (xs : List ℚ) (h : xs ≠ []) :
    listMinD xs ≤ listMean xs ∧ listMean xs ≤ listMaxD xs := by
  have hlen : 0 < xs.length := List.length_pos.mpr h
  have hlenq : (0 : ℚ) < (xs.length : ℚ) := by exact_mod_cast hlen
  have hup : xs.sum ≤ (listMaxD xs) * (xs.length : ℚ) := by
    have := List.sum_le_card_nsmul xs (listMaxD xs)
      (fun x hx => mem_le_listMaxD xs x hx)
    rw [nsmul_eq_mul] at this
    linarith [this]
  have hlo : (listMinD xs) * (xs.length : ℚ) ≤ xs.sum := by
    have := List.card_nsmul_le_sum xs (listMinD xs)
      (fun x hx => listMinD_le_mem xs x hx)
    rw [nsmul_eq_mul] at this
    linarith [this]
  constructor
  · rw [listMean, le_div_iff₀ hlenq]
    exact hlo
  · rw [listMean, div_le_iff₀ hlenq]
    exact hup

/-- In-range `getD` gives a member of the list. -/
theorem getD_mem_of_lt (s : List ℚ) (i : ℕ) (d : ℚ) (h : i < s.length) :
    s.getD i d ∈ s := by
  rw [List.getD_eq_getElem _ _ h]
  exact List.getElem_mem h

/-- On a sorted list, in-range `getD` values are ordered by index (the
defaults are irrelevant in range). -/
theorem sorted_getD_mono (s : List ℚ) (hs : List.Sorted (· ≤ ·) s)
    (i j : ℕ) (d1 d2 : ℚ) (hij : i ≤ j) (hj : j < s.length) :
    s.getD i d1 ≤ s.getD j d2 := by
  have hi : i < s.length := lt_of_le_of_lt hij hj
  rw [List.getD_eq_getElem _ _ hi, List.getD_eq_getElem _ _ hj]
  rcases eq_or_lt_of_le hij with rfl | hlt
  · exact le_refl _
  · exact List.pairwise_iff_get.mp hs ⟨i, hi⟩ ⟨j, hj⟩ hlt

/-- Linear interpolation with a nonnegative fraction stays at or above the
lower endpoint. -/
theorem interp_lower (lo hi f : ℚ) (hf : 0 ≤ f) (hlohi : lo ≤ hi) :
    lo ≤ lo + f * (hi - lo) := by
  have := mul_nonneg hf (sub_nonneg.mpr hlohi)
  linarith

/-- Linear interpolation with a fraction at most one stays at or below the
upper endpoint. -/
theorem interp_upper (lo hi f : ℚ) (hf : f ≤ 1) (hlohi : lo ≤ hi) :
    lo + f * (hi - lo) ≤ hi := by
  have := mul_le_mul_of_nonneg_right hf (sub_nonneg.mpr hlohi)
  linarith

/-- Increasing the fraction increases the interpolated value (same
segment). -/
theorem interp_mono (lo hi f1 f2 : ℚ) (hf : f1 ≤ f2) (hlohi : lo ≤ hi) :
    lo + f1 * (hi - lo) ≤ lo + f2 * (hi - lo) := by
  have := mul_le_mul_of_nonneg_right hf (sub_nonneg.mpr hlohi)
  linarith

/-- Unfolded form of `quantileSorted` on a non-empty list. -/
theorem quantileSorted_eq (s : List ℚ) (hlen : s.length ≠ 0) (q : ℚ) :
    quantileSorted s q =
      s.getD (⌊q * ((s.length - 1 : ℕ) : ℚ)⌋.toNat) 0
        + (q * ((s.length - 1 : ℕ) : ℚ)
            - ((⌊q * ((s.length - 1 : ℕ) : ℚ)⌋.toNat : ℕ) : ℚ))
          * (s.getD (⌊q * ((s.length - 1 : ℕ) : ℚ)⌋.toNat + 1)
              (s.getD (⌊q * ((s.length - 1 : ℕ) : ℚ)⌋.toNat) 0)
            - s.getD (⌊q * ((s.length - 1 : ℕ) : ℚ)⌋.toNat) 0) := by
  simp [quantileSorted, hlen]

/-- Index facts for the interpolation index of a quantile in [0, 1]: the
floor index is in the first `length - 1` positions, sits at or below the
interpolation position, and is within less than one of it. -/
theorem quantile_idx_facts (s : List ℚ) (q : ℚ) (h0 : 0 ≤ q) (h1 : q ≤ 1) :
    ⌊q * ((s.length - 1 : ℕ) : ℚ)⌋.toNat ≤ s.length - 1 ∧
    ((⌊q * ((s.length - 1 : ℕ) : ℚ)⌋.toNat : ℕ) : ℚ)
        ≤ q * ((s.length - 1 : ℕ) : ℚ) ∧
    q * ((s.length - 1 : ℕ) : ℚ)
        - ((⌊q * ((s.length - 1 : ℕ) : ℚ)⌋.toNat : ℕ) : ℚ) < 1 := by
  have hm0 : (0 : ℚ) ≤ ((s.length - 1 : ℕ) : ℚ) := Nat.cast_nonneg _
  have h0' : 0 ≤ q * ((s.length - 1 : ℕ) : ℚ) := mul_nonneg h0 hm0
  have hfl0 : 0 ≤ ⌊q * ((s.length - 1 : ℕ) : ℚ)⌋ := Int.floor_nonneg.mpr h0'
  have hcast : ((⌊q * ((s.length - 1 : ℕ) : ℚ)⌋.toNat : ℕ) : ℚ)
      = ((⌊q * ((s.length - 1 : ℕ) : ℚ)⌋ : ℤ) : ℚ) := by
    have h2 : ((⌊q * ((s.length - 1 : ℕ) : ℚ)⌋.toNat : ℕ) : ℤ)
        = ⌊q * ((s.length - 1 : ℕ) : ℚ)⌋ := Int.toNat_of_nonneg hfl0
    exact_mod_cast congrArg (fun z : ℤ => (z : ℚ)) h2
  refine ⟨?_, ?_, ?_⟩
  · have hle : q * ((s.length - 1 : ℕ) : ℚ) ≤ ((s.length - 1 : ℕ) : ℚ) :=
      mul_le_of_le_one_left hm0 h1
    have : ⌊q * ((s.length - 1 : ℕ) : ℚ)⌋ ≤ ((s.length - 1 : ℕ) : ℤ) := by
      have := Int.floor_le_floor hle
      simpa using this
    exact Int.toNat_le.mpr this
  · rw [hcast]
    exact Int.floor_le _
  · rw [hcast]
    have := Int.lt_floor_add_one (q * ((s.length - 1 : ℕ) : ℚ))
    push_cast at this ⊢
    linarith

/-- A quantile in [0, 1] of a sorted non-empty list lies between two
members of the list. -/
theorem quantileSorted_between (s : List ℚ) (hs : List.Sorted (· ≤ ·) s)
    (hne : s ≠ []) (q : ℚ) (h0 : 0 ≤ q) (h1 : q ≤ 1) :
    ∃ a ∈ s, ∃ b ∈ s,
      a ≤ quantileSorted s q ∧ quantileSorted s q ≤ b := by
  have hlen : s.length ≠ 0 := fun h => hne (List.length_eq_zero.mp h)
  have hlpos : 0 < s.length := Nat.pos_of_ne_zero hlen
  obtain ⟨him, hile, hfrac⟩ := quantile_idx_facts s q h0 h1
  rw [quantileSorted_eq s hlen q]
  set h := q * ((s.length - 1 : ℕ) : ℚ) with hdefh
  set i := ⌊h⌋.toNat with hdefi
  have hin : i < s.length := lt_of_le_of_lt him (Nat.sub_lt hlpos Nat.one_pos)
  have hlomem : s.getD i 0 ∈ s := getD_mem_of_lt s i 0 hin
  have hf0 : 0 ≤ h - (i : ℚ) := by linarith
  have hf1 : h - (i : ℚ) ≤ 1 := le_of_lt hfrac
  by_cases hi1 : i + 1 < s.length
  · have hlohi : s.getD i 0 ≤ s.getD (i + 1) (s.getD i 0) :=
      sorted_getD_mono s hs i (i + 1) 0 (s.getD i 0) (Nat.le_succ i) hi1
    exact ⟨s.getD i 0, hlomem, s.getD (i + 1) (s.getD i 0),
      getD_mem_of_lt s (i + 1) (s.getD i 0) hi1,
      interp_lower _ _ _ hf0 hlohi, interp_upper _ _ _ hf1 hlohi⟩
  · have hdef : s.getD (i + 1) (s.getD i 0) = s.getD i 0 :=
      List.getD_eq_default _ _ (Nat.le_of_not_lt hi1)
    rw [hdef]
    exact ⟨s.getD i 0, hlomem, s.getD i 0, hlomem, by simp, by simp⟩

/-- The interpolated quantile is monotone in the quantile level on a
sorted list. -/
theorem quantileSorted_mono (s : List ℚ) (hs : List.Sorted (· ≤ ·) s)
    (hne : s ≠ []) (q1 q2 : ℚ) (h0 : 0 ≤ q1) (h12 : q1 ≤ q2) (h21 : q2 ≤ 1) :
    quantileSorted s q1 ≤ quantileSorted s q2 := by
  have hlen : s.length ≠ 0 := fun h => hne (List.length_eq_zero.mp h)
  have hlpos : 0 < s.length := Nat.pos_of_ne_zero hlen
  obtain ⟨him1, hile1, hfrac1⟩ := quantile_idx_facts s q1 h0 (le_trans h12 h21)
  obtain ⟨him2, hile2, hfrac2⟩ := quantile_idx_facts s q2 (le_trans h0 h12) h21
  rw [quantileSorted_eq s hlen q1, quantileSorted_eq s hlen q2]
  set h1' := q1 * ((s.length - 1 : ℕ) : ℚ) with hdefh1
  set h2' := q2 * ((s.length - 1 : ℕ) : ℚ) with hdefh2
  set i1 := ⌊h1'⌋.toNat with hdefi1
  set i2 := ⌊h2'⌋.toNat with hdefi2
  have hh12 : h1' ≤ h2' :=
    mul_le_mul_of_nonneg_right h12 (Nat.cast_nonneg _)
  have hi12 : i1 ≤ i2 := Int.toNat_le_toNat (Int.floor_le_floor hh12)
  have hin1 : i1 < s.length := lt_of_le_of_lt him1 (Nat.sub_lt hlpos Nat.one_pos)
  have hin2 : i2 < s.length := lt_of_le_of_lt him2 (Nat.sub_lt hlpos Nat.one_pos)
  rcases eq_or_lt_of_le hi12 with heq | hlt
  · rw [heq]
    have hle12 : h1' - (i2 : ℚ) ≤ h2' - (i2 : ℚ) := by linarith
    by_cases hrange : i2 + 1 < s.length
    · have hlohi : s.getD i2 0 ≤ s.getD (i2 + 1) (s.getD i2 0) :=
        sorted_getD_mono s hs i2 (i2 + 1) 0 (s.getD i2 0) (Nat.le_succ i2) hrange
      exact interp_mono _ _ _ _ hle12 hlohi
    · have hdef : s.getD (i2 + 1) (s.getD i2 0) = s.getD i2 0 :=
        List.getD_eq_default _ _ (Nat.le_of_not_lt hrange)
      rw [hdef]
      simp
  · have hi1r : i1 + 1 < s.length := lt_of_le_of_lt hlt hin2
    have hlohi1 : s.getD i1 0 ≤ s.getD (i1 + 1) (s.getD i1 0) :=
      sorted_getD_mono s hs i1 (i1 + 1) 0 (s.getD i1 0) (Nat.le_succ i1) hi1r
    have hup1 : s.getD i1 0
        + (h1' - (i1 : ℚ)) * (s.getD (i1 + 1) (s.getD i1 0) - s.getD i1 0)
        ≤ s.getD (i1 + 1) (s.getD i1 0) :=
      interp_upper _ _ _ (le_of_lt hfrac1) hlohi1
    have hmid : s.getD (i1 + 1) (s.getD i1 0) ≤ s.getD i2 0 :=
      sorted_getD_mono s hs (i1 + 1) i2 (s.getD i1 0) 0 hlt hin2
    have hf20 : 0 ≤ h2' - (i2 : ℚ) := by linarith
    have hlow2 : s.getD i2 0 ≤ s.getD i2 0
        + (h2' - (i2 : ℚ)) * (s.getD (i2 + 1) (s.getD i2 0) - s.getD i2 0) := by
      by_cases hrange : i2 + 1 < s.length
      · exact interp_lower _ _ _ hf20
          (sorted_getD_mono s hs i2 (i2 + 1) 0 (s.getD i2 0)
            (Nat.le_succ i2) hrange)
      · rw [List.getD_eq_default _ _ (Nat.le_of_not_lt hrange)]
        simp
    linarith

/-- The interpolated quantile of `describe()` is monotone in the quantile
level. -/
theorem quantileLinear_mono (xs : List ℚ) (hne : xs ≠ []) (q1 q2 : ℚ)
    (h0 : 0 ≤ q1) (h12 : q1 ≤ q2) (h21 : q2 ≤ 1) :
    quantileLinear xs q1 ≤ quantileLinear xs q2 := by
  have hperm := List.perm_insertionSort (· ≤ ·) xs
  have hsne : List.insertionSort (· ≤ ·) xs ≠ [] := by
    intro h
    apply hne
    apply List.length_eq_zero.mp
    rw [← hperm.length_eq, h]
    rfl
  exact quantileSorted_mono _ (List.sorted_insertionSort _ xs) hsne q1 q2
    h0 h12 h21

/-- The interpolated quantile of `describe()` lies between the observed
minimum and maximum of the data. -/
theorem quantileLinear_bounds (xs : List ℚ) (hne : xs ≠ []) (q : ℚ)
    (h0 : 0 ≤ q) (h1 : q ≤ 1) :
    listMinD xs ≤ quantileLinear xs q ∧ quantileLinear xs q ≤ listMaxD xs := by
  have hperm := List.perm_insertionSort (· ≤ ·) xs
  have hsne : List.insertionSort (· ≤ ·) xs ≠ [] := by
    intro h
    apply hne
    apply List.length_eq_zero.mp
    rw [← hperm.length_eq, h]
    rfl
  obtain ⟨a, has, b, hbs, hale, hble⟩ :=
    quantileSorted_between _ (List.sorted_insertionSort _ xs) hsne q h0 h1
  exact ⟨le_trans (listMinD_le_mem xs a (hperm.mem_iff.mp has)) hale,
    le_trans hble (mem_le_listMaxD xs b (hperm.mem_iff.mp hbs))⟩

/-- C9: on every non-empty row subset `playtime_hist` succeeds, and the
statistics it computes at lines 95-98 — the 25% percentile, the median
(the 50% percentile) and the 75% percentile of `playtime_hours` by linear
interpolation, and the mean — satisfy `p25 ≤ median ≤ p75`, and both the
mean and the median lie within the observed minimum and maximum of the
subset.  (Line 96-98 then round each statistic to the nearest integer hour
for display.) -/
theorem c9_summary_stats (rows : List ReviewRow) (hne : rows ≠ []) :
    (∃ out, playtime_hist rows = Except.ok out) ∧
    quantileLinear (rows.map fun r => r.playtime_hours) (1 / 4)
      ≤ quantileLinear (rows.map fun r => r.playtime_hours) (1 / 2) ∧
    quantileLinear (rows.map fun r => r.playtime_hours) (1 / 2)
      ≤ quantileLinear (rows.map fun r => r.playtime_hours) (3 / 4) ∧
    listMinD (rows.map fun r => r.playtime_hours)
      ≤ listMean (rows.map fun r => r.playtime_hours) ∧
    listMean (rows.map fun r => r.playtime_hours)
      ≤ listMaxD (rows.map fun r => r.playtime_hours) ∧
    listMinD (rows.map fun r => r.playtime_hours)
      ≤ quantileLinear (rows.map fun r => r.playtime_hours) (1 / 2) ∧
    quantileLinear (rows.map fun r => r.playtime_hours) (1 / 2)
      ≤ listMaxD (rows.map fun r => r.playtime_hours) := by
  have hhne : rows.map (fun r => r.playtime_hours) ≠ [] := by
    intro h
    exact hne (List.map_eq_nil_iff.mp h)
  have hlen0 : ¬ ((rows.map fun r => r.playtime_hours).length = 0) := by
    intro h
    exact hhne (List.length_eq_zero.mp h)
  refine ⟨⟨{ mean_hours := pyRound (listMean (rows.map fun r => r.playtime_hours))
             median_hours :=
               pyRound (quantileLinear (rows.map fun r => r.playtime_hours) (1 / 2))
             p25_hours :=
               pyRound (quantileLinear (rows.map fun r => r.playtime_hours) (1 / 4))
             p75_hours :=
               pyRound (quantileLinear (rows.map fun r => r.playtime_hours) (3 / 4))
             title := (rows.map fun r => r.title).getD 0 "" }, ?_⟩,
    ?_, ?_, (listMean_bounds _ hhne).1, (listMean_bounds _ hhne).2,
    (quantileLinear_bounds _ hhne (1 / 2) (by norm_num) (by norm_num)).1,
    (quantileLinear_bounds _ hhne (1 / 2) (by norm_num) (by norm_num)).2⟩
  · simp only [playtime_hist]
    rw [if_neg hlen0]
  · exact quantileLinear_mono _ hhne (1 / 4) (1 / 2)
      (by norm_num) (by norm_num) (by norm_num)
  · exact quantileLinear_mono _ hhne (1 / 2) (3 / 4)
      (by norm_num) (by norm_num) (by norm_num)

/-- Witness for C9: the one-row subset — all statistics coincide and the
summary succeeds. -/
theorem c9_summary_stats_witness :
    (∃ out, playtime_hist [dRow] = Except.ok out) ∧
    quantileLinear ([dRow].map fun r => r.playtime_hours) (1 / 4)
      ≤ quantileLinear ([dRow].map fun r => r.playtime_hours) (1 / 2) ∧
    quantileLinear ([dRow].map fun r => r.playtime_hours) (1 / 2)
      ≤ quantileLinear ([dRow].map fun r => r.playtime_hours) (3 / 4) ∧
    listMinD ([dRow].map fun r => r.playtime_hours)
      ≤ listMean ([dRow].map fun r => r.playtime_hours) ∧
    listMean ([dRow].map fun r => r.playtime_hours)
      ≤ listMaxD ([dRow].map fun r => r.playtime_hours) ∧
    listMinD ([dRow].map fun r => r.playtime_hours)
      ≤ quantileLinear ([dRow].map fun r => r.playtime_hours) (1 / 2) ∧
    quantileLinear ([dRow].map fun r => r.playtime_hours) (1 / 2)
      ≤ listMaxD ([dRow].map fun r => r.playtime_hours) :=
  c9_summary_stats [dRow] (List.cons_ne_nil dRow [])
